import Mathlib

/-!
# GTFS value canonicalizer: a shallow embedding of `src/ole/formatting.py`

This file embeds the per-cell coercion rules (`_to_gtfs_time`, `_to_gtfs_date`,
`_to_zero_one_str`, `_to_int_str`, `_to_float_str`, `_identity_str`) and the
table-level `format_df_for_gtfs` of the repository's `ole/formatting.py`.

Modelling conventions:
* Cell values are the inductive type `Value`, covering the data model of the
  program: absent (`Value.none` for Python `None`), `Value.nan` (a float NaN),
  strings, ints, non-NaN floats, booleans, date/time values, geometry points
  (with `x`/`y` or `lat`/`lon` accessors) and arbitrary other objects carrying
  their `str()` rendering.
* Python floats are modelled as exact rationals (`ℚ`).  Binary-double
  artefacts (signed zero, infinities, shortest-repr `str(float)`) are outside
  the model; `float("...")` parsing is modelled for plain decimal numerals
  (no exponent notation), which covers every string the formatter itself
  produces.  Python `round` is round-half-to-even (`pyRound`); `int(float)`
  truncates toward zero (`pyTrunc`).
* The external pandas parsers `pd.to_timedelta` / `pd.to_datetime` are
  library code, not repository code; they are abstract parameters
  (`ExternalParsers`).  A concrete instance `isoParsers` handling ISO
  `YYYY-MM-DD` dates is supplied for concrete evaluations.
* Python `str.strip()` is `pyStrip` (drop whitespace from both ends),
  `str.lower()` is `pyLower`, `s.split(":")` is `splitColon`.
-/

/-! ## Characters, digits and basic string helpers -/

def dval (c : Char) : Nat := c.toNat - 48

def digitChar (d : Nat) : Char := Char.ofNat (48 + d)

/-- The numeric value of a (most-significant-first) digit list. -/
def natOfDigits (l : List Char) : Nat := l.foldl (fun a c => a * 10 + dval c) 0

/-- Decimal digits of `n`, most significant first; `[]` for `0`.
`fuel`-driven so that it is structurally recursive. -/
def natDigitsAux : Nat → Nat → List Char
  | 0, _ => []
  | fuel + 1, n => if n = 0 then [] else natDigitsAux fuel (n / 10) ++ [digitChar (n % 10)]

def natDigits (n : Nat) : List Char := natDigitsAux (n + 1) n

/-- Decimal digits of `n`, rendering `0` as `"0"` (Python `str` of a Nat). -/
def natDigitsM (n : Nat) : List Char := if n = 0 then ['0'] else natDigits n

/-- Python `str` of an `Int`. -/
def intDigits (n : Int) : List Char :=
  (if n < 0 then ['-'] else []) ++ natDigitsM n.natAbs

def pyIntToString (n : Int) : String := String.mk (intDigits n)

/-- Left-pad a digit list with `'0'` to width `k`. -/
def padZeros (k : Nat) (l : List Char) : List Char :=
  List.replicate (k - l.length) '0' ++ l

def isWS (c : Char) : Bool := c.isWhitespace

/-- Python `str.strip()` on a character list. -/
def pyStripL (l : List Char) : List Char :=
  ((l.dropWhile isWS).reverse.dropWhile isWS).reverse

def pyStrip (s : String) : String := String.mk (pyStripL s.toList)

def pyLower (s : String) : String := String.mk (s.toList.map Char.toLower)

/-- Python `s.split(sep)` for a one-character separator (keeps empty parts). -/
def splitOnCharAux (sep : Char) : List Char → List Char → List (List Char)
  | [], acc => [acc.reverse]
  | c :: t, acc =>
      if c = sep then acc.reverse :: splitOnCharAux sep t []
      else splitOnCharAux sep t (c :: acc)

def splitOnChar (sep : Char) (l : List Char) : List (List Char) :=
  splitOnCharAux sep l []

def splitColon (l : List Char) : List (List Char) := splitOnChar ':' l

/-! ## Numeric parsing (models of Python `int(str)` / `float(str)`) -/

/-- Split a leading sign character: `(isNegative, rest)`. -/
def splitSign (l : List Char) : Bool × List Char :=
  if l.head? = some '-' then (true, l.tail)
  else if l.head? = some '+' then (false, l.tail)
  else (false, l)

/-- Split a numeral at its decimal point.  Fails when there are two or more
dots; a numeral with no dot has an empty fractional part. -/
def splitDot : List Char → Option (List Char × List Char)
  | [] => some ([], [])
  | c :: t =>
      if c = '.' then (if '.' ∈ t then Option.none else some ([], t))
      else
        match splitDot t with
        | some p => some (c :: p.1, p.2)
        | Option.none => Option.none

/-- Model of Python `int(s)` for strings: optional sign, nonempty digits. -/
def pyIntParseL (l0 : List Char) : Option Int :=
  let l := pyStripL l0
  let sr := splitSign l
  if sr.2 ≠ [] ∧ sr.2.all Char.isDigit then
    some (if sr.1 then -(natOfDigits sr.2 : Int) else (natOfDigits sr.2 : Int))
  else Option.none

def pyIntParse (s : String) : Option Int := pyIntParseL s.toList

/-- Model of Python `float(s)` for plain decimal numerals. -/
def pyFloatParseL (l0 : List Char) : Option ℚ :=
  let l := pyStripL l0
  let sr := splitSign l
  match splitDot sr.2 with
  | some p =>
      if (p.1.all Char.isDigit ∧ p.2.all Char.isDigit) ∧ p.1 ++ p.2 ≠ [] then
        let m : ℚ := (natOfDigits p.1 : ℚ) + (natOfDigits p.2 : ℚ) / (10 : ℚ) ^ p.2.length
        some (if sr.1 then -m else m)
      else Option.none
  | Option.none => Option.none

def pyFloatParse (s : String) : Option ℚ := pyFloatParseL s.toList

/-! ## Rounding (models of Python `round` and `int(float)`) -/

/-- Floor of a rational as an integer (denominators are positive). -/
def pyFloor (q : ℚ) : Int := q.num.fdiv q.den

/-- Python `round(x)`: round half to even. -/
def pyRound (q : ℚ) : Int :=
  let f := pyFloor q
  let r := q - (f : ℚ)
  if r < 1 / 2 then f
  else if 1 / 2 < r then f + 1
  else if f % 2 = 0 then f else f + 1

/-- Python `int(x)` on a float: truncation toward zero. -/
def pyTrunc (q : ℚ) : Int :=
  if 0 ≤ q then pyFloor q else -pyFloor (-q)

/-! ## Values (the data model of a table cell) -/

inductive Value where
  | none                              -- Python None / pd.NA
  | nan                               -- float('nan')
  | str (s : String)
  | int (n : Int)
  | float (q : ℚ)                     -- a non-NaN float, modelled exactly
  | bool (b : Bool)
  | timedelta (secs : ℚ)              -- pd.Timedelta, via total_seconds()
  | timeofday (h m s : Nat)           -- datetime.time / time part of a Timestamp
  | date (y m d : Nat)                -- datetime.date / datetime / Timestamp
  | point (x y : ℚ)                   -- geometry with .x / .y accessors
  | pointLatLon (lat lon : ℚ)         -- geometry with .lat / .lon accessors
  | obj (repr : String)               -- any other object, carrying its str()
deriving DecidableEq

/-- Model of `pd.isna` on the modelled values (and also of the explicit
`v is None or (isinstance(v, float) and math.isnan(v))` check of the
time/date rules, which coincides with it on this data model). -/
def isNA : Value → Bool
  | Value.none => true
  | Value.nan => true
  | _ => false

/-! ## Rendering helpers -/

/-- Python format 02d: zero-pad to width 2 (the sign counts toward the width). -/
def pad2 (n : Int) : List Char :=
  let s := intDigits n
  if s.length < 2 then '0' :: s else s

/-- Render hours, minutes and seconds zero-padded from a total-seconds count, with Python's
floor `//` and `%` (`Int.fdiv` / `Int.fmod`). -/
def render3 (total : Int) : String :=
  String.mk (pad2 (total.fdiv 3600) ++ ':' :: pad2 ((total.fmod 3600).fdiv 60)
    ++ ':' :: pad2 (total.fmod 60))

/-- Model of strftime with the format Y-m-d, 4+2+2 zero-padded digits. -/
def renderYMD (y m d : Nat) : String :=
  String.mk (padZeros 4 (natDigits y) ++ padZeros 2 (natDigits m) ++ padZeros 2 (natDigits d))

/-- Python `rstrip("0")`. -/
def rstripZeros (l : List Char) : List Char :=
  (l.reverse.dropWhile (fun c => c = '0')).reverse

/-- Python `rstrip(".")`. -/
def rstripDot (l : List Char) : List Char :=
  (l.reverse.dropWhile (fun c => c = '.')).reverse

/-- Python fixed-point rendering with exactly 12 fractional digits (format .12f).
The value is rounded half-to-even at the 12th decimal.  (Signed zero is not
representable in `ℚ`, so the sign is taken from the rounded scaled integer.) -/
def fixed12 (q : ℚ) : List Char :=
  let n := pyRound (q * (10 : ℚ) ^ 12)
  (if n < 0 then ['-'] else []) ++ natDigitsM (n.natAbs / 10 ^ 12)
    ++ '.' :: padZeros 12 (natDigits (n.natAbs % 10 ^ 12))

/-- The full float rendering of the source: fixed-point with 12 digits, then
rstrip of zeros, then rstrip of the dot, with the empty-string guard
(`s if s else "0"`) of the source. -/
def floatFmt (q : ℚ) : String :=
  let t := rstripDot (rstripZeros (fixed12 q))
  if t = [] then "0" else String.mk t

/-- Python `str(v)` on the modelled values.  For floats the decimal rendering
stands in for repr (no claim constrains it). -/
def pyStr : Value → String
  | Value.none => "None"
  | Value.nan => "nan"
  | Value.str s => s
  | Value.int n => pyIntToString n
  | Value.float q => floatFmt q
  | Value.bool b => if b then "True" else "False"
  | Value.timedelta q => "Timedelta " ++ floatFmt q
  | Value.timeofday h m s => String.mk (pad2 h ++ ':' :: pad2 m ++ ':' :: pad2 s)
  | Value.date y m d =>
      String.mk (padZeros 4 (natDigits y)) ++ "-" ++ String.mk (padZeros 2 (natDigits m))
        ++ "-" ++ String.mk (padZeros 2 (natDigits d))
  | Value.point x y => "POINT (" ++ floatFmt x ++ " " ++ floatFmt y ++ ")"
  | Value.pointLatLon a b => "Point " ++ floatFmt a ++ " " ++ floatFmt b
  | Value.obj r => r

/-- Model of Python `float(v)` applied to a cell value: numbers and booleans
coerce, strings are parsed, everything else raises (`Option.none`). -/
def pyFloatCoerce : Value → Option ℚ
  | Value.int n => some (n : ℚ)
  | Value.float q => some q
  | Value.bool b => some (if b then 1 else 0)
  | Value.str s => pyFloatParse s
  | _ => Option.none

/-! ## The external pandas parsers (`pd.to_timedelta`, `pd.to_datetime`) -/

/-- The two pandas string parsers the formatter calls.  They are external
library code (not part of this repository), so they are abstract here:
`toTimedelta` yields total seconds, `toDatetime` yields `(year, month, day)`;
`Option.none` models a raised parse error. -/
structure ExternalParsers where
  toTimedelta : String → Option ℚ
  toDatetime : String → Option (Nat × Nat × Nat)

/-! ## The six per-cell rules -/

/-- Embedding of `_to_gtfs_time` of `ole/formatting.py`. -/
def _to_gtfs_time (P : ExternalParsers) (v : Value) : String :=
  if isNA v then ""
  else
    match v with
    | Value.str s0 =>
        let l := pyStripL s0.toList
        if l = [] then ""
        else
          let fallback :=
            match P.toTimedelta (String.mk l) with
            | some secs => render3 (pyTrunc secs)
            | Option.none => String.mk l
          match splitColon l with
          | [p1, p2, p3] =>
              if p1 ≠ [] ∧ p2 ≠ [] ∧ p3 ≠ [] then
                match pyIntParseL p1, pyIntParseL p2, pyFloatParseL p3 with
                | some h, some m, some sec =>
                    String.mk (pad2 h ++ ':' :: pad2 m ++ ':' :: pad2 (pyTrunc sec))
                | _, _, _ => fallback
              else fallback
          | _ => fallback
    | Value.timedelta secs => render3 (pyTrunc secs)
    | Value.timeofday h m s => String.mk (pad2 h ++ ':' :: pad2 m ++ ':' :: pad2 s)
    | Value.date y m d => pyStr (Value.date y m d)
    | Value.bool b => render3 (if b then 1 else 0)   -- bool is an int in Python
    | Value.int n => render3 n
    | Value.float q => render3 (pyRound q)
    | v => pyStr v

/-- Embedding of `_to_gtfs_date` of `ole/formatting.py`. -/
def _to_gtfs_date (P : ExternalParsers) (v : Value) : String :=
  if isNA v then ""
  else
    match v with
    | Value.str s0 =>
        let l := pyStripL s0.toList
        if l = [] then ""
        else if l.length = 8 ∧ l.all Char.isDigit then String.mk l
        else
          match P.toDatetime (String.mk l) with
          | some ymd => renderYMD ymd.1 ymd.2.1 ymd.2.2
          | Option.none => String.mk l
    | Value.date y m d => renderYMD y m d
    | v => pyStr v

/-- Embedding of `_to_zero_one_str` of `ole/formatting.py`.  (The fallback guard around
`int(round(float(v)))` catches only the infinity overflow, which has no
rational model, so the numeric branch is total here.) -/
def _to_zero_one_str (v : Value) : String :=
  if isNA v then ""
  else
    match v with
    | Value.str s0 =>
        let s := pyStrip s0
        if s = "0" ∨ s = "1" then s
        else if pyLower s ∈ ["true", "t", "yes", "y"] then "1"
        else if pyLower s ∈ ["false", "f", "no", "n"] then "0"
        else s
    | Value.bool b => if b then "1" else "0"
    | Value.int n => if pyRound (n : ℚ) ≠ 0 then "1" else "0"
    | Value.float q => if pyRound q ≠ 0 then "1" else "0"
    | v => pyStr v

/-- Embedding of `_to_int_str` of `ole/formatting.py`. -/
def _to_int_str (v : Value) : String :=
  if isNA v then ""
  else
    match pyFloatCoerce v with
    | some q => pyIntToString (pyRound q)
    | Option.none =>
        let s := pyStrip (pyStr v)
        if pyLower s ∈ ["nan", "none"] then "" else s

/-- Embedding of `_to_float_str` of `ole/formatting.py`. -/
def _to_float_str (v : Value) : String :=
  if isNA v then ""
  else
    match pyFloatCoerce v with
    | some q => floatFmt q
    | Option.none => pyStr v

/-- Embedding of `_identity_str` of `ole/formatting.py`. -/
def _identity_str (v : Value) : String :=
  if isNA v then "" else pyStr v

/-! ## The table model and `format_df_for_gtfs` -/

/-- A pandas DataFrame: ordered named columns of cell values. -/
structure DataFrame where
  cols : List (String × List Value)
deriving DecidableEq

def DataFrame.names (df : DataFrame) : List String := df.cols.map Prod.fst

def DataFrame.col? (df : DataFrame) (c : String) : Option (List Value) :=
  (df.cols.find? (fun p => p.1 = c)).map Prod.snd

/-- Column assignment `df[c] = vs` (updates in place; appends if new). -/
def DataFrame.setCol (df : DataFrame) (c : String) (vs : List Value) : DataFrame :=
  if c ∈ df.names then
    ⟨df.cols.map (fun p => if p.1 = c then (c, vs) else p)⟩
  else ⟨df.cols ++ [(c, vs)]⟩

/-- Embedding of `_gx` of the source: the y accessor if present, else lat, else NaN. -/
def _gx : Value → Value
  | Value.point _ y => Value.float y
  | Value.pointLatLon lat _ => Value.float lat
  | _ => Value.nan

/-- Embedding of `_gy` of the source: the x accessor if present, else lon, else NaN. -/
def _gy : Value → Value
  | Value.point x _ => Value.float x
  | Value.pointLatLon _ lon => Value.float lon
  | _ => Value.nan

/-- Cellwise fillna of pandas Series: keep the first value unless it is NA. -/
def fillna (a b : Value) : Value := if isNA a then b else a

/-- The fixed column-name buckets of the source. -/
def time_cols : List String := ["arrival_time", "departure_time", "start_time", "end_time"]
def date_cols : List String := ["date", "start_date", "end_date"]
def zero_one_cols : List String :=
  ["monday", "tuesday", "wednesday", "thursday", "friday", "saturday", "sunday",
   "pickup_type", "drop_off_type", "wheelchair_accessible", "bikes_allowed"]
def int_cols : List String :=
  ["stop_sequence", "direction_id", "route_type", "exception_type", "location_type",
   "transfer_type"]
def float_cols : List String :=
  ["stop_lat", "stop_lon", "shape_dist_traveled", "shape_pt_lat", "shape_pt_lon"]

/-- The per-column rule dispatch of the conversion loop. -/
def ruleFor (P : ExternalParsers) (c : String) : Value → String :=
  if c ∈ time_cols then _to_gtfs_time P
  else if c ∈ date_cols then _to_gtfs_date P
  else if c ∈ zero_one_cols then _to_zero_one_str
  else if c ∈ int_cols then _to_int_str
  else if c ∈ float_cols then _to_float_str
  else _identity_str

/-- The `for c in out.columns: out[c] = out[c].map(...)` loop. -/
def applyRules (P : ExternalParsers) (df : DataFrame) : DataFrame :=
  ⟨df.cols.map (fun p => (p.1, p.2.map (fun v => Value.str (ruleFor P p.1 v))))⟩

/-- Embedding of the final astype(str) conversion. -/
def astypeStr (df : DataFrame) : DataFrame :=
  ⟨df.cols.map (fun p => (p.1, p.2.map (fun v => Value.str (pyStr v))))⟩

/-- The geometry-enrichment block of `format_df_for_gtfs`. -/
def enrichGeometry (df : DataFrame) : DataFrame :=
  let geom := (df.col? "geometry").getD []
  let df1 := df.setCol "stop_lat"
    (List.zipWith fillna ((df.col? "stop_lat").getD []) (geom.map _gx))
  df1.setCol "stop_lon"
    (List.zipWith fillna ((df1.col? "stop_lon").getD []) (geom.map _gy))

/-- Embedding of `format_df_for_gtfs` of `ole/formatting.py`. -/
def format_df_for_gtfs (P : ExternalParsers) (df : DataFrame) : DataFrame :=
  let out := df
  let out :=
    if "geometry" ∈ out.names ∧ "stop_lat" ∈ out.names ∧ "stop_lon" ∈ out.names then
      enrichGeometry out
    else out
  astypeStr (applyRules P out)

/-! ## A concrete instance of the external parsers -/

/-- Modelled from the spec: `pd.to_datetime` restricted to ISO `YYYY-MM-DD`
input (the only date format the spec exercises); every other string fails. -/
def isoDateParse (s : String) : Option (Nat × Nat × Nat) :=
  match splitOnChar '-' s.toList with
  | [y, m, d] =>
      if y.length = 4 ∧ y.all Char.isDigit ∧ m.length = 2 ∧ m.all Char.isDigit
          ∧ d.length = 2 ∧ d.all Char.isDigit
          ∧ 1 ≤ natOfDigits m ∧ natOfDigits m ≤ 12
          ∧ 1 ≤ natOfDigits d ∧ natOfDigits d ≤ 31 then
        some (natOfDigits y, natOfDigits m, natOfDigits d)
      else Option.none
  | _ => Option.none

/-- Concrete external parsers: no timedelta strings, ISO dates only. -/
def isoParsers : ExternalParsers :=
  ⟨fun _ => Option.none, isoDateParse⟩

/-! ## A heap model of `format_df_for_gtfs`'s mutation discipline

`format_df_for_gtfs` starts with `out = df.copy()` and then mutates `out`
in place (`out.loc[:, ...] = ...`, `out[c] = ...`).  To state claim C9
(the source table is never mutated) non-vacuously, the function is replayed
against an explicit heap of DataFrames: `copy()` allocates a fresh cell, every
subsequent write hits that cell, and `astype(str)` allocates the result. -/

/-- One `out[c] = out[c].map(rule)` write at heap cell `o`. -/
def heapMapCol (P : ExternalParsers) (h : List DataFrame) (o : Nat) (c : String) :
    List DataFrame :=
  let cur := h.getD o ⟨[]⟩
  h.set o (cur.setCol c (((cur.col? c).getD []).map (fun v => Value.str (ruleFor P c v))))

/-- The geometry-enrichment block as in-place writes at heap cell `o`. -/
def heapEnrich (H1 : List DataFrame) (o : Nat) : List DataFrame :=
  let cur := H1.getD o ⟨[]⟩
  if "geometry" ∈ cur.names ∧ "stop_lat" ∈ cur.names ∧ "stop_lon" ∈ cur.names then
    let geom := (cur.col? "geometry").getD []
    let H2a := H1.set o (cur.setCol "stop_lat"
      (List.zipWith fillna ((cur.col? "stop_lat").getD []) (geom.map _gx)))
    let cur2 := H2a.getD o ⟨[]⟩
    H2a.set o (cur2.setCol "stop_lon"
      (List.zipWith fillna ((cur2.col? "stop_lon").getD []) (geom.map _gy)))
  else H1

/-- The `for c in out.columns` conversion loop as in-place writes at cell `o`. -/
def heapLoop (P : ExternalParsers) (H2 : List DataFrame) (o : Nat) : List DataFrame :=
  (H2.getD o ⟨[]⟩).names.foldl (fun h c => heapMapCol P h o c) H2

/-- Replay of `format_df_for_gtfs` against a heap: the input table lives at index `i`;
the returned index points at the freshly allocated result. -/
def heap_format_df (P : ExternalParsers) (H : List DataFrame) (i : Nat) :
    List DataFrame × Nat :=
  let H1 := H ++ [H.getD i ⟨[]⟩]          -- out = df.copy()
  let o := H.length
  let H2 := heapEnrich H1 o
  let H3 := heapLoop P H2 o
  (H3 ++ [astypeStr (H3.getD o ⟨[]⟩)], H3.length)   -- return out.astype(str)

/-- A one-row stops table carrying a Point geometry and missing lat/lon,
used to evaluate the geometry-enrichment claims. -/
def dfGeo : DataFrame :=
  ⟨[("stop_lat", [Value.none]), ("stop_lon", [Value.none]),
    ("geometry", [Value.point (56 / 5 : ℚ) (493 / 10 : ℚ)])]⟩

/-! ## Helper lemmas: digit arithmetic -/

theorem foldl_digits_shift (l : List Char) : ∀ acc : Nat,
    List.foldl (fun a c => a * 10 + dval c) acc l
      = acc * 10 ^ l.length + natOfDigits l := by
  induction l with
  | nil => intro acc; simp [natOfDigits]
  | cons c t ih =>
      intro acc
      show List.foldl _ (acc * 10 + dval c) t = _
      rw [ih (acc * 10 + dval c)]
      have h2 : natOfDigits (c :: t) = dval c * 10 ^ t.length + natOfDigits t := by
        show List.foldl _ (0 * 10 + dval c) t = _
        rw [ih (0 * 10 + dval c)]
        ring_nf
      rw [h2, List.length_cons]
      ring

theorem natOfDigits_append (a b : List Char) :
    natOfDigits (a ++ b) = natOfDigits a * 10 ^ b.length + natOfDigits b := by
  unfold natOfDigits
  rw [List.foldl_append]
  exact foldl_digits_shift b _

theorem dval_digitChar (d : Nat) (h : d < 10) : dval (digitChar d) = d := by
  interval_cases d <;> decide

theorem isDigit_digitChar (d : Nat) (h : d < 10) : (digitChar d).isDigit = true := by
  interval_cases d <;> decide

theorem natOfDigits_singleton (c : Char) : natOfDigits [c] = dval c := by
  show 0 * 10 + dval c = dval c
  ring

theorem natDigitsAux_spec : ∀ (fuel n : Nat), n ≤ fuel →
    natOfDigits (natDigitsAux fuel n) = n := by
  intro fuel
  induction fuel with
  | zero => intro n h; interval_cases n; rfl
  | succ f ih =>
      intro n h
      by_cases h0 : n = 0
      · subst h0; rfl
      · rw [natDigitsAux, if_neg h0, natOfDigits_append, natOfDigits_singleton,
          dval_digitChar _ (Nat.mod_lt _ (by norm_num))]
        have hlt : n / 10 < n := Nat.div_lt_self (Nat.pos_of_ne_zero h0) (by norm_num)
        rw [ih (n / 10) (by omega)]
        simp only [List.length_cons, List.length_nil, pow_one, pow_zero]
        omega

theorem natDigits_spec (n : Nat) : natOfDigits (natDigits n) = n :=
  natDigitsAux_spec (n + 1) n (Nat.le_succ n)

theorem natDigitsAux_digits : ∀ (fuel n : Nat),
    (natDigitsAux fuel n).all Char.isDigit = true := by
  intro fuel
  induction fuel with
  | zero => intro n; rfl
  | succ f ih =>
      intro n
      by_cases h0 : n = 0
      · subst h0; rfl
      · rw [natDigitsAux, if_neg h0, List.all_append, Bool.and_eq_true]
        refine And.intro (ih (n / 10)) ?_
        simp [isDigit_digitChar _ (Nat.mod_lt _ (by norm_num))]

theorem natDigits_digits (n : Nat) : (natDigits n).all Char.isDigit = true :=
  natDigitsAux_digits (n + 1) n

theorem natDigitsAux_len : ∀ (fuel n k : Nat), n < 10 ^ k →
    (natDigitsAux fuel n).length ≤ k := by
  intro fuel
  induction fuel with
  | zero => intro n k _; simp [natDigitsAux]
  | succ f ih =>
      intro n k hk
      by_cases h0 : n = 0
      · subst h0; simp [natDigitsAux]
      · rw [natDigitsAux, if_neg h0, List.length_append]
        match k with
        | 0 => exact absurd hk (by simp; omega)
        | k' + 1 =>
            have hd : n / 10 < 10 ^ k' := by
              apply Nat.div_lt_of_lt_mul
              calc n < 10 ^ (k' + 1) := hk
                _ = 10 * 10 ^ k' := by ring
            have := ih (n / 10) k' hd
            simp only [List.length_cons, List.length_nil]
            omega

theorem natDigits_len (n k : Nat) (h : n < 10 ^ k) : (natDigits n).length ≤ k :=
  natDigitsAux_len (n + 1) n k h

theorem natOfDigits_natDigitsM (n : Nat) : natOfDigits (natDigitsM n) = n := by
  unfold natDigitsM
  by_cases h0 : n = 0
  · subst h0; rfl
  · rw [if_neg h0]; exact natDigits_spec n

theorem natDigitsM_ne_nil (n : Nat) : natDigitsM n ≠ [] := by
  unfold natDigitsM
  by_cases h0 : n = 0
  · subst h0; simp
  · rw [if_neg h0]
    unfold natDigits
    rw [natDigitsAux, if_neg h0]
    simp

theorem natDigitsM_digits (n : Nat) : (natDigitsM n).all Char.isDigit = true := by
  unfold natDigitsM
  by_cases h0 : n = 0
  · subst h0; decide
  · rw [if_neg h0]; exact natDigits_digits n

theorem natOfDigits_replicate (k : Nat) : natOfDigits (List.replicate k '0') = 0 := by
  induction k with
  | zero => rfl
  | succ j ih =>
      show natOfDigits ('0' :: List.replicate j '0') = 0
      show List.foldl _ (0 * 10 + dval '0') _ = 0
      have : 0 * 10 + dval '0' = 0 := by decide
      rw [this]
      exact ih

theorem natOfDigits_padZeros (k : Nat) (l : List Char) :
    natOfDigits (padZeros k l) = natOfDigits l := by
  unfold padZeros
  rw [natOfDigits_append, natOfDigits_replicate]
  ring

theorem padZeros_length (k : Nat) (l : List Char) (h : l.length ≤ k) :
    (padZeros k l).length = k := by
  simp [padZeros]
  omega

theorem all_replicate_zero (k : Nat) : (List.replicate k '0').all Char.isDigit = true := by
  rw [List.all_eq_true]
  intro c hc
  rw [List.eq_of_mem_replicate hc]
  decide

theorem padZeros_digits (k : Nat) (l : List Char) (h : l.all Char.isDigit = true) :
    (padZeros k l).all Char.isDigit = true := by
  unfold padZeros
  rw [List.all_append, Bool.and_eq_true]
  exact ⟨all_replicate_zero _, h⟩

theorem natOfDigits_append_zeros (l : List Char) (k : Nat) :
    natOfDigits (l ++ List.replicate k '0') = natOfDigits l * 10 ^ k := by
  rw [natOfDigits_append, natOfDigits_replicate, List.length_replicate]
  ring

/-! ## Helper lemmas: stripping -/

theorem head_dropWhile_false {α} {p : α → Bool} (l : List α) {x : α}
    (h : (l.dropWhile p).head? = some x) : p x = false := by
  have hh := List.head?_dropWhile_not p l
  rw [h] at hh
  exact hh

theorem dropWhile_of_all_neg {α} {p : α → Bool} {l : List α}
    (h : ∀ c ∈ l, p c = false) : l.dropWhile p = l := by
  cases l with
  | nil => rfl
  | cons c t =>
      apply List.dropWhile_cons_of_neg
      simp [h c (List.mem_cons_self c t)]

theorem pyStripL_of_all (l : List Char) (h : ∀ c ∈ l, isWS c = false) :
    pyStripL l = l := by
  unfold pyStripL
  rw [dropWhile_of_all_neg h, dropWhile_of_all_neg, List.reverse_reverse]
  intro c hc
  exact h c (List.mem_reverse.mp hc)

theorem pyStripL_idem (l : List Char) : pyStripL (pyStripL l) = pyStripL l := by
  have hAhead : ∀ x, (List.dropWhile isWS l).head? = some x → isWS x = false :=
    fun _ h => head_dropWhile_false l h
  unfold pyStripL
  generalize hA : List.dropWhile isWS l = A
  rw [hA] at hAhead
  have hBhead : ∀ x, (A.reverse.dropWhile isWS).head? = some x → isWS x = false :=
    fun _ h => head_dropWhile_false A.reverse h
  have hdecomp : A = (A.reverse.dropWhile isWS).reverse ++ (A.reverse.takeWhile isWS).reverse := by
    have h1 := congrArg List.reverse (List.takeWhile_append_dropWhile isWS A.reverse)
    rw [List.reverse_append, List.reverse_reverse] at h1
    exact h1.symm
  cases hB : A.reverse.dropWhile isWS with
  | nil => simp
  | cons c t =>
      rw [hB] at hBhead hdecomp
      obtain ⟨d, u, hdu⟩ := List.exists_cons_of_ne_nil (l := (c :: t).reverse) (by simp)
      have hdws : isWS d = false := by
        apply hAhead
        rw [hdecomp, hdu]
        rfl
      rw [hdu, List.dropWhile_cons_of_neg (by simp [hdws]), ← hdu, List.reverse_reverse,
        List.dropWhile_cons_of_neg (by simp [hBhead c rfl])]

/-! ## Helper lemmas: rounding -/

theorem pyFloor_intCast (n : Int) : pyFloor (n : ℚ) = n := by
  unfold pyFloor
  rw [Rat.num_intCast, Rat.den_intCast]
  simp [Int.fdiv_one]

theorem pyRound_intCast (n : Int) : pyRound (n : ℚ) = n := by
  unfold pyRound
  rw [pyFloor_intCast]
  simp only [sub_self]
  rw [if_pos (by norm_num)]

/-! ## Miscellaneous character/string facts -/

theorem isDigit_not_ws {c : Char} (h : c.isDigit = true) : isWS c = false := by
  unfold isWS
  by_cases h1 : c = ' '
  · subst h1; exact absurd h (by decide)
  by_cases h2 : c = '\t'
  · subst h2; exact absurd h (by decide)
  by_cases h3 : c = '\r'
  · subst h3; exact absurd h (by decide)
  by_cases h4 : c = '\n'
  · subst h4; exact absurd h (by decide)
  simp [Char.isWhitespace, h1, h2, h3, h4]

theorem pyStripL_of_digits (l : List Char) (h : l.all Char.isDigit = true) :
    pyStripL l = l := by
  apply pyStripL_of_all
  intro c hc
  exact isDigit_not_ws (by rw [List.all_eq_true] at h; exact h c hc)

theorem intDigits_chars (n : Int) : ∀ c ∈ intDigits n, c.isDigit = true ∨ c = '-' := by
  intro c hc
  unfold intDigits at hc
  rw [List.mem_append] at hc
  rcases hc with hc | hc
  · right
    by_cases hn : n < 0
    · rw [if_pos hn] at hc; simpa using hc
    · rw [if_neg hn] at hc; simp at hc
  · left
    have := natDigitsM_digits n.natAbs
    rw [List.all_eq_true] at this
    exact this c hc

theorem pyStrip_pyIntToString (n : Int) : pyStrip (pyIntToString n) = pyIntToString n := by
  show String.mk (pyStripL (intDigits n)) = String.mk (intDigits n)
  congr 1
  apply pyStripL_of_all
  intro c hc
  rcases intDigits_chars n c hc with h | h
  · exact isDigit_not_ws h
  · subst h; decide

theorem no_dot_pyIntToString (n : Int) : '.' ∈ (pyIntToString n).toList → False := by
  intro hin
  rcases intDigits_chars n '.' hin with h | h
  · exact absurd h (by decide)
  · exact absurd h (by decide)

theorem pyStrip_idem (s : String) : pyStrip (pyStrip s) = pyStrip s := by
  unfold pyStrip
  show String.mk (pyStripL (pyStripL s.toList)) = _
  rw [pyStripL_idem]

/-! ## Claims C1, C3, C7, C8 -/

section ClaimProofs

attribute [local semireducible] Rat.mul Rat.inv Rat.add Rat.sub Nat.gcd Rat.ofScientific

/-- Claim C1: for every rule (time, date, zero-or-one, integer, float,
identity), an absent/null cell value (Python `None`, or a float NaN) maps to
the empty string `""`.  Each rule is a total Lean function on the modelled
cell values, so every cell receives some output string: the per-cell
conversion never raises. -/
theorem C1_null_maps_to_empty (P : ExternalParsers) :
    (_to_gtfs_time P Value.none = "" ∧ _to_gtfs_time P Value.nan = "")
    ∧ (_to_gtfs_date P Value.none = "" ∧ _to_gtfs_date P Value.nan = "")
    ∧ (_to_zero_one_str Value.none = "" ∧ _to_zero_one_str Value.nan = "")
    ∧ (_to_int_str Value.none = "" ∧ _to_int_str Value.nan = "")
    ∧ (_to_float_str Value.none = "" ∧ _to_float_str Value.nan = "")
    ∧ (_identity_str Value.none = "" ∧ _identity_str Value.nan = "") :=
  ⟨⟨rfl, rfl⟩, ⟨rfl, rfl⟩, ⟨rfl, rfl⟩, ⟨rfl, rfl⟩, ⟨rfl, rfl⟩, ⟨rfl, rfl⟩⟩

/-- Claim C3 counterexample: on the zero-or-one rule the input string `" x "`
is returned *stripped* (`"x"`), which is none of `""`, `"0"`, `"1"`, nor the
original string `" x "`; so the claimed four-way range is violated. -/
theorem C3_cex :
    _to_zero_one_str (Value.str " x ") = "x"
    ∧ ¬("x" = "" ∨ "x" = "0" ∨ "x" = "1" ∨ "x" = " x ") := by
  exact ⟨by decide, by decide⟩

/-- Claim C3 (amended): for every input value of a column classified
zero-or-one, the output is one of `""`, `"0"`, `"1"`, the *whitespace-trimmed*
original string (for string inputs whose text matches no recognized token), or
the plain string conversion of the value (for inputs that are not strings,
booleans, numbers or nulls). -/
theorem C3_zero_one_range (v : Value) :
    _to_zero_one_str v = "" ∨ _to_zero_one_str v = "0" ∨ _to_zero_one_str v = "1"
    ∨ (∃ s, v = Value.str s ∧ _to_zero_one_str v = pyStrip s)
    ∨ _to_zero_one_str v = pyStr v := by
  cases v with
  | str s =>
      simp only [_to_zero_one_str, isNA]
      by_cases h01 : pyStrip s = "0" ∨ pyStrip s = "1"
      · rw [if_neg (by decide), if_pos h01]
        exact Or.inr (Or.inr (Or.inr (Or.inl ⟨s, rfl, rfl⟩)))
      · rw [if_neg (by decide), if_neg h01]
        by_cases ht : pyLower (pyStrip s) ∈ ["true", "t", "yes", "y"]
        · rw [if_pos ht]
          exact Or.inr (Or.inr (Or.inl rfl))
        · rw [if_neg ht]
          by_cases hf : pyLower (pyStrip s) ∈ ["false", "f", "no", "n"]
          · rw [if_pos hf]
            exact Or.inr (Or.inl rfl)
          · rw [if_neg hf]
            exact Or.inr (Or.inr (Or.inr (Or.inl ⟨s, rfl, rfl⟩)))
  | none => exact Or.inl rfl
  | nan => exact Or.inl rfl
  | bool b =>
      cases b
      · exact Or.inr (Or.inl rfl)
      · exact Or.inr (Or.inr (Or.inl rfl))
  | int n =>
      by_cases h : pyRound ((n : Int) : ℚ) ≠ 0
      · refine Or.inr (Or.inr (Or.inl ?_))
        simp only [_to_zero_one_str, isNA]
        rw [if_neg (by decide), if_pos h]
      · refine Or.inr (Or.inl ?_)
        simp only [_to_zero_one_str, isNA]
        rw [if_neg (by decide), if_neg h]
  | float q =>
      by_cases h : pyRound q ≠ 0
      · refine Or.inr (Or.inr (Or.inl ?_))
        simp only [_to_zero_one_str, isNA]
        rw [if_neg (by decide), if_pos h]
      · refine Or.inr (Or.inl ?_)
        simp only [_to_zero_one_str, isNA]
        rw [if_neg (by decide), if_neg h]
  | timedelta q => exact Or.inr (Or.inr (Or.inr (Or.inr rfl)))
  | timeofday h m s => exact Or.inr (Or.inr (Or.inr (Or.inr rfl)))
  | date y m d => exact Or.inr (Or.inr (Or.inr (Or.inr rfl)))
  | point x y => exact Or.inr (Or.inr (Or.inr (Or.inr rfl)))
  | pointLatLon a b => exact Or.inr (Or.inr (Or.inr (Or.inr rfl)))
  | obj r => exact Or.inr (Or.inr (Or.inr (Or.inr rfl)))

/-- Claim C7: on the zero-or-one rule, case-insensitive truthy tokens map to
`"1"`, falsy tokens map to `"0"`, booleans map to `"1"`/`"0"`, numeric zero
maps to `"0"` and any numeric value that is non-zero after rounding maps to
`"1"`; in particular `"yes" ↦ "1"`, `"No" ↦ "0"`, and the non-zero numeric
value 2 maps to `"1"`. -/
theorem C7_zero_one_tokens :
    (∀ s : String, pyLower (pyStrip s) ∈ ["true", "t", "yes", "y"] →
        _to_zero_one_str (Value.str s) = "1")
    ∧ (∀ s : String, pyLower (pyStrip s) ∈ ["false", "f", "no", "n"] →
        _to_zero_one_str (Value.str s) = "0")
    ∧ (_to_zero_one_str (Value.bool true) = "1" ∧ _to_zero_one_str (Value.bool false) = "0")
    ∧ (_to_zero_one_str (Value.int 0) = "0"
        ∧ ∀ n : Int, n ≠ 0 → _to_zero_one_str (Value.int n) = "1")
    ∧ ((∀ q : ℚ, pyRound q = 0 → _to_zero_one_str (Value.float q) = "0")
        ∧ (∀ q : ℚ, pyRound q ≠ 0 → _to_zero_one_str (Value.float q) = "1"))
    ∧ (_to_zero_one_str (Value.str "yes") = "1" ∧ _to_zero_one_str (Value.str "No") = "0"
        ∧ _to_zero_one_str (Value.int 2) = "1") := by
  have hstr1 : ∀ s : String, pyLower (pyStrip s) ∈ ["true", "t", "yes", "y"] →
      _to_zero_one_str (Value.str s) = "1" := by
    intro s hmem
    have h01 : ¬(pyStrip s = "0" ∨ pyStrip s = "1") := by
      rintro (h | h) <;> (rw [h] at hmem; exact absurd hmem (by decide))
    simp only [_to_zero_one_str, isNA]
    rw [if_neg (by decide), if_neg h01, if_pos hmem]
  have notboth : ∀ x : String, x ∈ (["false", "f", "no", "n"] : List String) →
      x ∉ (["true", "t", "yes", "y"] : List String) := by
    intro x hx
    simp only [List.mem_cons, List.not_mem_nil, or_false] at hx
    rcases hx with h | h | h | h <;> subst h <;> decide
  have hstr0 : ∀ s : String, pyLower (pyStrip s) ∈ ["false", "f", "no", "n"] →
      _to_zero_one_str (Value.str s) = "0" := by
    intro s hmem
    have h01 : ¬(pyStrip s = "0" ∨ pyStrip s = "1") := by
      rintro (h | h) <;> (rw [h] at hmem; exact absurd hmem (by decide))
    have ht : ¬(pyLower (pyStrip s) ∈ ["true", "t", "yes", "y"]) :=
      notboth _ hmem
    simp only [_to_zero_one_str, isNA]
    rw [if_neg (by decide), if_neg h01, if_neg ht, if_pos hmem]
  refine ⟨hstr1, hstr0, ⟨rfl, rfl⟩, ⟨by decide, ?_⟩, ⟨?_, ?_⟩, hstr1 "yes" (by decide),
    hstr0 "No" (by decide), by decide⟩
  · intro n hn
    simp only [_to_zero_one_str, isNA]
    rw [if_neg (by decide), if_pos (by rw [pyRound_intCast]; exact_mod_cast hn)]
  · intro q hq
    simp only [_to_zero_one_str, isNA]
    rw [if_neg (by decide), if_neg (by simp [hq])]
  · intro q hq
    simp only [_to_zero_one_str, isNA]
    rw [if_neg (by decide), if_pos hq]

/-- Claim C7 witness: concrete instances of the token/boolean/numeric
mappings, obtained from `C7_zero_one_tokens`. -/
theorem C7_witness :
    _to_zero_one_str (Value.str " True ") = "1"
    ∧ _to_zero_one_str (Value.str "n") = "0"
    ∧ _to_zero_one_str (Value.int 5) = "1"
    ∧ _to_zero_one_str (Value.float (19 / 10 : ℚ)) = "1"
    ∧ _to_zero_one_str (Value.float (2 / 5 : ℚ)) = "0" :=
  ⟨C7_zero_one_tokens.1 " True " (by decide),
   C7_zero_one_tokens.2.1 "n" (by decide),
   C7_zero_one_tokens.2.2.2.1.2 5 (by decide),
   C7_zero_one_tokens.2.2.2.2.1.2 (19 / 10 : ℚ) (by decide),
   C7_zero_one_tokens.2.2.2.2.1.1 (2 / 5 : ℚ) (by decide)⟩

/-- Claim C8 counterexample: in an integer column the value `"1.2.3"` defeats
numeric coercion and falls back to the trimmed string, so the output contains
a decimal point, contradicting the claim's "no decimal point" for fallback
outputs. -/
theorem C8_cex :
    _to_int_str (Value.str "1.2.3") = "1.2.3" ∧ '.' ∈ ("1.2.3" : String).toList := by
  exact ⟨by decide, by decide⟩

/-- Claim C8 (amended): integer-rule output never has leading or trailing
whitespace; and whenever numeric coercion succeeds the output contains no
decimal point.  (A failed coercion falls back to the trimmed string form,
which may itself contain a decimal point, as the counterexample shows.) -/
theorem C8_int_rule (v : Value) :
    pyStrip (_to_int_str v) = _to_int_str v
    ∧ (∀ q : ℚ, pyFloatCoerce v = some q → '.' ∈ (_to_int_str v).toList → False) := by
  constructor
  · by_cases hna : isNA v
    · unfold _to_int_str
      rw [if_pos hna]
      decide
    · cases hc : pyFloatCoerce v with
      | some q =>
          unfold _to_int_str
          rw [if_neg hna, hc]
          exact pyStrip_pyIntToString (pyRound q)
      | none =>
          unfold _to_int_str
          rw [if_neg hna, hc]
          by_cases hsup : pyLower (pyStrip (pyStr v)) ∈ ["nan", "none"]
          · rw [if_pos hsup]; decide
          · rw [if_neg hsup]; exact pyStrip_idem (pyStr v)
  · intro q hq hdot
    have hna : isNA v = false := by
      cases v <;> first | rfl | (exact absurd hq (by simp [pyFloatCoerce]))
    rw [_to_int_str] at hdot
    rw [hna] at hdot
    simp only [Bool.false_eq_true, if_false, hq] at hdot
    exact no_dot_pyIntToString (pyRound q) hdot

/-- Claim C8 witness: the integer rule at `" 7 "` (numeric coercion succeeds),
via `C8_int_rule`. -/
theorem C8_witness :
    pyStrip (_to_int_str (Value.str " 7 ")) = _to_int_str (Value.str " 7 ")
    ∧ ('.' ∈ (_to_int_str (Value.str " 7 ")).toList → False) :=
  ⟨(C8_int_rule (Value.str " 7 ")).1,
   (C8_int_rule (Value.str " 7 ")).2 7 (by decide)⟩

end ClaimProofs

/-! ## Claims C5, C6 -/

section ClaimProofs2

attribute [local semireducible] Rat.mul Rat.inv Rat.add Rat.sub Nat.gcd Rat.ofScientific

/-- Claim C5: on the time rule, a stripped string splitting into three
non-empty colon-separated parts whose hour/minute parse as integers and whose
seconds parse as a (possibly fractional) number is re-rendered zero-padded
`HH:MM:SS` with the seconds truncated toward zero; and an `int` value, or a
(non-NaN) `float` value after round-half-even, is treated as elapsed seconds
since midnight and decomposed `HH:MM:SS` with floor-division/modulus. -/
theorem C5_time_rule (P : ExternalParsers) :
    (∀ (s : String) (p1 p2 p3 : List Char) (h m : Int) (sec : ℚ),
        splitColon (pyStripL s.toList) = [p1, p2, p3] →
        p1 ≠ [] → p2 ≠ [] → p3 ≠ [] →
        pyIntParseL p1 = some h → pyIntParseL p2 = some m → pyFloatParseL p3 = some sec →
        _to_gtfs_time P (Value.str s)
          = String.mk (pad2 h ++ ':' :: pad2 m ++ ':' :: pad2 (pyTrunc sec)))
    ∧ (∀ n : Int, _to_gtfs_time P (Value.int n) = render3 n)
    ∧ (∀ q : ℚ, _to_gtfs_time P (Value.float q) = render3 (pyRound q)) := by
  refine ⟨?_, fun n => rfl, fun q => rfl⟩
  intro s p1 p2 p3 h m sec hsplit h1 h2 h3 hp1 hp2 hp3
  have hne : pyStripL s.toList ≠ [] := by
    intro h0
    rw [h0] at hsplit
    have := congrArg List.length hsplit
    simp [splitColon, splitOnChar, splitOnCharAux] at this
  simp only [_to_gtfs_time, isNA]
  rw [if_neg (by decide), if_neg hne, hsplit]
  simp only []
  rw [if_pos ⟨h1, h2, h3⟩, hp1, hp2, hp3]

/-- Claim C5 witness: `"5:3:0" ↦ "05:03:00"` and `3725 ↦ "01:02:05"`,
via `C5_time_rule`. -/
theorem C5_witness :
    _to_gtfs_time isoParsers (Value.str "5:3:0") = "05:03:00"
    ∧ _to_gtfs_time isoParsers (Value.int 3725) = "01:02:05" := by
  constructor
  · have h := (C5_time_rule isoParsers).1 "5:3:0" ['5'] ['3'] ['0'] 5 3 0
      (by decide) (by decide) (by decide) (by decide) (by decide) (by decide) (by decide)
    rw [h]
    decide
  · have h := (C5_time_rule isoParsers).2.1 3725
    rw [h]
    decide

/-- Claim C6 counterexample: on the date rule, an unparseable string with
surrounding whitespace is returned *stripped*, not unchanged: `" hello "`
yields `"hello"`. -/
theorem C6_cex :
    _to_gtfs_date isoParsers (Value.str " hello ") = "hello"
    ∧ "hello" ≠ " hello " := by
  exact ⟨by decide, by decide⟩

/-- Claim C6 (amended): on the date rule, an 8-character all-digit string is
returned unchanged; any other (stripped-nonempty) string is handed to the
calendar-date parser and rendered `YYYYMMDD` on success; and if parsing fails
the *whitespace-trimmed* original string is returned, without raising. -/
theorem C6_date_rule (P : ExternalParsers) :
    (∀ s : String, s.toList.length = 8 → s.toList.all Char.isDigit = true →
        _to_gtfs_date P (Value.str s) = s)
    ∧ (∀ (s : String) (y m d : Nat),
        pyStripL s.toList ≠ [] →
        ¬((pyStripL s.toList).length = 8 ∧ (pyStripL s.toList).all Char.isDigit = true) →
        P.toDatetime (String.mk (pyStripL s.toList)) = some (y, m, d) →
        _to_gtfs_date P (Value.str s) = renderYMD y m d)
    ∧ (∀ s : String,
        pyStripL s.toList ≠ [] →
        ¬((pyStripL s.toList).length = 8 ∧ (pyStripL s.toList).all Char.isDigit = true) →
        P.toDatetime (String.mk (pyStripL s.toList)) = Option.none →
        _to_gtfs_date P (Value.str s) = String.mk (pyStripL s.toList)) := by
  refine ⟨?_, ?_, ?_⟩
  · intro s hlen hdig
    have hstrip : pyStripL s.toList = s.toList := pyStripL_of_digits _ hdig
    have hne : pyStripL s.toList ≠ [] := by
      rw [hstrip]
      intro h0
      rw [h0] at hlen
      simp at hlen
    simp only [_to_gtfs_date, isNA]
    rw [if_neg (by decide), if_neg hne, if_pos ⟨by rw [hstrip]; exact hlen,
      by rw [hstrip]; exact hdig⟩, hstrip]
    rfl
  · intro s y m d hne hnot hparse
    simp only [_to_gtfs_date, isNA]
    rw [if_neg (by decide), if_neg hne, if_neg hnot, hparse]
  · intro s hne hnot hparse
    simp only [_to_gtfs_date, isNA]
    rw [if_neg (by decide), if_neg hne, if_neg hnot, hparse]

/-- Claim C6 witness: `"2024-03-07" ↦ "20240307"` (parse succeeds) and
`"20240307" ↦ "20240307"` (already `YYYYMMDD`), via `C6_date_rule`. -/
theorem C6_witness :
    _to_gtfs_date isoParsers (Value.str "2024-03-07") = "20240307"
    ∧ _to_gtfs_date isoParsers (Value.str "20240307") = "20240307" := by
  constructor
  · have h := (C6_date_rule isoParsers).2.1 "2024-03-07" 2024 3 7
      (by decide) (by decide) (by decide)
    rw [h]
    decide
  · exact (C6_date_rule isoParsers).1 "20240307" (by decide) (by decide)

end ClaimProofs2

/-! ## Helper lemmas for the float-rule round trip (claim C4) -/

theorem isDigit_ne_dash {c : Char} (h : c.isDigit = true) : c ≠ '-' := by
  intro e; subst e; exact absurd h (by decide)

theorem isDigit_ne_plus {c : Char} (h : c.isDigit = true) : c ≠ '+' := by
  intro e; subst e; exact absurd h (by decide)

theorem isDigit_ne_dot {c : Char} (h : c.isDigit = true) : c ≠ '.' := by
  intro e; subst e; exact absurd h (by decide)

theorem not_dot_of_digits {l : List Char} (h : l.all Char.isDigit = true) : '.' ∉ l := by
  intro hm
  rw [List.all_eq_true] at h
  exact absurd (h '.' hm) (by decide)

theorem splitDot_nodot : ∀ (l : List Char), '.' ∉ l → splitDot l = some (l, []) := by
  intro l
  induction l with
  | nil => intro _; rfl
  | cons c t ih =>
      intro h
      have hc : ¬(c = '.') := fun e => h (by rw [e]; exact List.mem_cons_self _ _)
      have ht : '.' ∉ t := fun m => h (List.mem_cons_of_mem c m)
      simp only [splitDot]
      rw [if_neg hc, ih ht]

theorem splitDot_append (A B : List Char) (hA : '.' ∉ A) (hB : '.' ∉ B) :
    splitDot (A ++ '.' :: B) = some (A, B) := by
  induction A with
  | nil =>
      simp only [List.nil_append, splitDot]
      simp [hB]
  | cons c t ih =>
      have hc : ¬(c = '.') := fun e => hA (by rw [e]; exact List.mem_cons_self _ _)
      have ht : '.' ∉ t := fun m => hA (List.mem_cons_of_mem c m)
      simp only [List.cons_append, splitDot, List.append_eq]
      rw [if_neg hc, ih ht]

theorem splitSign_neg (t : List Char) : splitSign ('-' :: t) = (true, t) := by
  simp [splitSign]

theorem splitSign_digit (c : Char) (t : List Char) (hc : c.isDigit = true) :
    splitSign (c :: t) = (false, c :: t) := by
  unfold splitSign
  rw [if_neg, if_neg]
  · intro h
    simp only [List.head?_cons, Option.some.injEq] at h
    exact isDigit_ne_plus hc h
  · intro h
    simp only [List.head?_cons, Option.some.injEq] at h
    exact isDigit_ne_dash hc h

theorem rstripZeros_decomp (l : List Char) :
    l = rstripZeros l
      ++ List.replicate (l.reverse.takeWhile (fun c => c = '0')).length '0' := by
  have h2 : l.reverse.takeWhile (fun c => c = '0')
      = List.replicate (l.reverse.takeWhile (fun c => c = '0')).length '0' := by
    apply List.eq_replicate_of_mem
    intro b hb
    have := List.mem_takeWhile_imp hb
    simpa using this
  have h3 : (l.reverse.takeWhile (fun c => c = '0')).reverse
      = List.replicate (l.reverse.takeWhile (fun c => c = '0')).length '0' := by
    conv_lhs => rw [h2]
    exact List.reverse_replicate _ _
  calc l = l.reverse.reverse := (List.reverse_reverse l).symm
    _ = (l.reverse.takeWhile (fun c => c = '0') ++ l.reverse.dropWhile (fun c => c = '0')).reverse := by
          rw [List.takeWhile_append_dropWhile]
    _ = (l.reverse.dropWhile (fun c => c = '0')).reverse
          ++ (l.reverse.takeWhile (fun c => c = '0')).reverse := by
          rw [List.reverse_append]
    _ = rstripZeros l ++ List.replicate (l.reverse.takeWhile (fun c => c = '0')).length '0' := by
          rw [rstripZeros, h3]

theorem rstripZeros_digits {l : List Char} (h : l.all Char.isDigit = true) :
    (rstripZeros l).all Char.isDigit = true := by
  rw [List.all_eq_true] at h ⊢
  intro c hc
  apply h
  have h1 : rstripZeros l ⊆ l := by
    unfold rstripZeros
    intro x hx
    rw [List.mem_reverse] at hx
    have := (List.dropWhile_sublist (l := l.reverse) (fun c => c = '0')).subset hx
    exact List.mem_reverse.mp this
  exact h1 hc

/-- The combined `rstrip("0").rstrip(".")` of a fixed-point numeral
`pre ++ "." ++ fpd` (with `pre` ending in a digit and `fpd` all digits):
the fractional part loses its trailing zeros, and the decimal point
disappears exactly when nothing of the fraction remains. -/
theorem strip_num_general (pre fpd : List Char) (d0 : Char) (t0 : List Char)
    (hpre : pre.reverse = d0 :: t0) (hd0 : d0.isDigit = true)
    (hfpd : fpd.all Char.isDigit = true) :
    rstripDot (rstripZeros (pre ++ '.' :: fpd)) =
      pre ++ (if rstripZeros fpd = [] then [] else '.' :: rstripZeros fpd) := by
  have hrev : (pre ++ '.' :: fpd).reverse = fpd.reverse ++ '.' :: pre.reverse := by
    rw [List.reverse_append, List.reverse_cons, List.append_assoc, List.singleton_append]
  cases hB : fpd.reverse.dropWhile (fun c => c = '0') with
  | nil =>
      have hfs : rstripZeros fpd = [] := by rw [rstripZeros, hB]; rfl
      rw [if_pos hfs, List.append_nil]
      have h1 : rstripZeros (pre ++ '.' :: fpd) = pre ++ ['.'] := by
        rw [rstripZeros, hrev, List.dropWhile_append, hB]
        simp only [List.isEmpty_nil, if_true]
        rw [List.dropWhile_cons_of_neg (by decide)]
        rw [List.reverse_cons, List.reverse_reverse]
      rw [h1, rstripDot, List.reverse_append]
      simp only [List.reverse_cons, List.reverse_nil, List.nil_append, List.singleton_append]
      rw [List.dropWhile_cons_of_pos (by decide), hpre,
        List.dropWhile_cons_of_neg (by simp [isDigit_ne_dot hd0]), ← hpre, List.reverse_reverse]
  | cons c t =>
      have hfs : rstripZeros fpd = (c :: t).reverse := by rw [rstripZeros, hB]
      have hcmem : c ∈ fpd := by
        have h1 : c ∈ fpd.reverse := (List.dropWhile_sublist _).subset (by rw [hB]; exact List.mem_cons_self _ _)
        exact List.mem_reverse.mp h1
      have hcdig : c.isDigit = true := by
        rw [List.all_eq_true] at hfpd
        exact hfpd c hcmem
      have hfs_ne : rstripZeros fpd ≠ [] := by rw [hfs]; simp
      rw [if_neg hfs_ne]
      have h1 : rstripZeros (pre ++ '.' :: fpd) = pre ++ '.' :: (c :: t).reverse := by
        rw [rstripZeros, hrev, List.dropWhile_append, hB]
        simp only [List.isEmpty_cons, Bool.false_eq_true, if_false]
        simp
      rw [h1, rstripDot]
      have h2 : (pre ++ '.' :: (c :: t).reverse).reverse = c :: (t ++ '.' :: pre.reverse) := by
        simp
      rw [h2, List.dropWhile_cons_of_neg (by simp [isDigit_ne_dot hcdig])]
      rw [← h2, List.reverse_reverse, hfs]

theorem splitSign_neg_fst (t : List Char) : (splitSign ('-' :: t)).1 = true := by
  simp [splitSign]

theorem splitSign_neg_snd (t : List Char) : (splitSign ('-' :: t)).2 = t := by
  simp [splitSign]

theorem splitSign_digit_fst (c : Char) (t : List Char) (hc : c.isDigit = true) :
    (splitSign (c :: t)).1 = false := by
  rw [splitSign_digit c t hc]

theorem splitSign_digit_snd (c : Char) (t : List Char) (hc : c.isDigit = true) :
    (splitSign (c :: t)).2 = c :: t := by
  rw [splitSign_digit c t hc]

theorem splitDot_render (ip fp : List Char) (hip : ip.all Char.isDigit = true)
    (hfp : fp.all Char.isDigit = true) :
    splitDot (ip ++ (if fp = [] then [] else '.' :: fp)) = some (ip, fp) := by
  by_cases h : fp = []
  · subst h
    rw [if_pos rfl, List.append_nil]
    exact splitDot_nodot ip (not_dot_of_digits hip)
  · rw [if_neg h]
    exact splitDot_append ip fp (not_dot_of_digits hip) (not_dot_of_digits hfp)

/-- Parsing a rendered decimal numeral `[-]ip[.fp]` recovers its value. -/
theorem parse_core (neg : Prop) [Decidable neg] (ip fp : List Char)
    (hip : ip.all Char.isDigit = true) (hfp : fp.all Char.isDigit = true) (hne : ip ≠ []) :
    pyFloatParseL ((if neg then ['-'] else []) ++ ip ++ (if fp = [] then [] else '.' :: fp))
      = some (if neg then
            -((natOfDigits ip : ℚ) + (natOfDigits fp : ℚ) / (10 : ℚ) ^ fp.length)
          else (natOfDigits ip : ℚ) + (natOfDigits fp : ℚ) / (10 : ℚ) ^ fp.length) := by
  have hnows : ∀ c ∈ (if neg then ['-'] else []) ++ ip ++ (if fp = [] then [] else '.' :: fp),
      isWS c = false := by
    intro c hc
    rw [List.mem_append] at hc
    rcases hc with hc | hc
    · rcases List.mem_append.mp hc with hc | hc
      · split at hc
        · simp at hc; subst hc; decide
        · simp at hc
      · exact isDigit_not_ws (by rw [List.all_eq_true] at hip; exact hip c hc)
    · split at hc
      · simp at hc
      · rcases List.mem_cons.mp hc with h | h
        · subst h; decide
        · exact isDigit_not_ws (by rw [List.all_eq_true] at hfp; exact hfp c h)
  have hsplit := splitDot_render ip fp hip hfp
  have happ : ip ++ fp ≠ [] := by
    intro h0
    exact hne (List.append_eq_nil.mp h0).1
  obtain ⟨c0, t0, hct⟩ := List.exists_cons_of_ne_nil hne
  have hc0dig : c0.isDigit = true := by
    rw [List.all_eq_true] at hip
    exact hip c0 (by rw [hct]; exact List.mem_cons_self _ _)
  by_cases hn : neg
  · rw [if_pos hn] at hnows ⊢
    rw [if_pos hn]
    rw [List.singleton_append, List.cons_append] at hnows ⊢
    simp only [pyFloatParseL]
    rw [pyStripL_of_all _ hnows, splitSign_neg_snd, splitSign_neg_fst, hsplit]
    simp only [if_pos (And.intro (And.intro hip hfp) happ), if_true]
  · rw [if_neg hn] at hnows ⊢
    rw [if_neg hn]
    rw [List.nil_append] at hnows ⊢
    have hshape : ip ++ (if fp = [] then [] else '.' :: fp)
        = c0 :: (t0 ++ (if fp = [] then [] else '.' :: fp)) := by
      rw [hct, List.cons_append]
    rw [hshape] at hnows ⊢
    simp only [pyFloatParseL]
    rw [pyStripL_of_all _ hnows, splitSign_digit_snd _ _ hc0dig,
      splitSign_digit_fst _ _ hc0dig, ← hshape, hsplit]
    simp only [if_pos (And.intro (And.intro hip hfp) happ), Bool.false_eq_true, if_false]

/-- The parsed value of the stripped fixed-point rendering of `a` scaled by
`10^12`. -/
theorem value_core (a : Nat) :
    (natOfDigits (natDigitsM (a / 10 ^ 12)) : ℚ)
      + (natOfDigits (rstripZeros (padZeros 12 (natDigits (a % 10 ^ 12)))) : ℚ)
        / (10 : ℚ) ^ (rstripZeros (padZeros 12 (natDigits (a % 10 ^ 12)))).length
    = (a : ℚ) / (10 : ℚ) ^ 12 := by
  have hdecomp := rstripZeros_decomp (padZeros 12 (natDigits (a % 10 ^ 12)))
  set fpd := padZeros 12 (natDigits (a % 10 ^ 12)) with hfpd_def
  set fs := rstripZeros fpd with hfs_def
  set K := (fpd.reverse.takeWhile (fun c => c = '0')).length with hK_def
  have hnodfpd : natOfDigits fpd = a % 10 ^ 12 := by
    rw [hfpd_def, natOfDigits_padZeros, natDigits_spec]
  have hlenfpd : fpd.length = 12 := by
    rw [hfpd_def]
    exact padZeros_length _ _ (natDigits_len _ _ (Nat.mod_lt _ (by positivity)))
  have hnodfs : natOfDigits fs * 10 ^ K = a % 10 ^ 12 := by
    rw [← hnodfpd]
    conv_rhs => rw [hdecomp]
    rw [natOfDigits_append_zeros]
  have hlen : fs.length + K = 12 := by
    rw [← hlenfpd]
    conv_rhs => rw [hdecomp]
    rw [List.length_append, List.length_replicate]
  rw [natOfDigits_natDigitsM]
  have hfrac : (natOfDigits fs : ℚ) / (10 : ℚ) ^ fs.length
      = ((a % 10 ^ 12 : ℕ) : ℚ) / (10 : ℚ) ^ (12 : ℕ) := by
    have h10 : ((10 : ℚ) ^ fs.length) ≠ 0 := by positivity
    have h10k : ((10 : ℚ) ^ K) ≠ 0 := by positivity
    rw [← hnodfs]
    push_cast
    rw [← hlen, pow_add]
    field_simp
    ring
  rw [hfrac]
  have hdm : (10 : ℕ) ^ 12 * (a / 10 ^ 12) + a % 10 ^ 12 = a := Nat.div_add_mod a (10 ^ 12)
  have hcast : ((10 : ℚ) ^ (12 : ℕ)) * ((a / 10 ^ 12 : ℕ) : ℚ) + ((a % 10 ^ 12 : ℕ) : ℚ)
      = (a : ℚ) := by
    exact_mod_cast congrArg (fun n : ℕ => (n : ℚ)) hdm
  have h12 : ((10 : ℚ) ^ (12 : ℕ)) ≠ 0 := by positivity
  field_simp
  linarith [hcast]

/-- Parsing the float rule's own output recovers the rounded scaled value. -/
theorem parse_floatFmt (q : ℚ) :
    pyFloatParse (floatFmt q) = some ((pyRound (q * (10 : ℚ) ^ 12) : ℚ) / (10 : ℚ) ^ 12) := by
  set n := pyRound (q * (10 : ℚ) ^ 12) with hn_def
  set ipd := natDigitsM (n.natAbs / 10 ^ 12) with hipd_def
  set fpd := padZeros 12 (natDigits (n.natAbs % 10 ^ 12)) with hfpd_def
  have hipne : ipd ≠ [] := natDigitsM_ne_nil _
  have hipdig : ipd.all Char.isDigit = true := natDigitsM_digits _
  have hfpddig : fpd.all Char.isDigit = true := padZeros_digits _ _ (natDigits_digits _)
  have hiprevne : ipd.reverse ≠ [] := by
    intro h
    rw [List.reverse_eq_nil_iff] at h
    exact hipne h
  obtain ⟨d0, u, hdu⟩ := List.exists_cons_of_ne_nil hiprevne
  have hd0dig : d0.isDigit = true := by
    rw [List.all_eq_true] at hipdig
    exact hipdig d0 (by rw [← List.mem_reverse, hdu]; exact List.mem_cons_self _ _)
  set pre := (if n < 0 then ['-'] else []) ++ ipd with hpre_def
  have hprerev : pre.reverse = d0 :: (u ++ (if n < 0 then ['-'] else []).reverse) := by
    rw [hpre_def, List.reverse_append, hdu, List.cons_append]
  have hfix : fixed12 q = pre ++ '.' :: fpd := rfl
  have hstrip := strip_num_general pre fpd d0 _ hprerev hd0dig hfpddig
  have htval : rstripDot (rstripZeros (fixed12 q))
      = pre ++ (if rstripZeros fpd = [] then [] else '.' :: rstripZeros fpd) := by
    rw [hfix]
    exact hstrip
  have hpre_ne : pre ≠ [] := by
    rw [hpre_def]
    intro h
    exact hipne (List.append_eq_nil.mp h).2
  have htne : pre ++ (if rstripZeros fpd = [] then [] else '.' :: rstripZeros fpd) ≠ [] := by
    intro h
    exact hpre_ne (List.append_eq_nil.mp h).1
  have hfmt : floatFmt q
      = String.mk (pre ++ (if rstripZeros fpd = [] then [] else '.' :: rstripZeros fpd)) := by
    simp only [floatFmt]
    rw [htval, if_neg htne]
  rw [hfmt]
  show pyFloatParseL (pre ++ (if rstripZeros fpd = [] then [] else '.' :: rstripZeros fpd)) = _
  rw [hpre_def,
    parse_core (n < 0) ipd (rstripZeros fpd) hipdig (rstripZeros_digits hfpddig) hipne]
  congr 1
  rw [hipd_def, hfpd_def]
  by_cases hneg : n < 0
  · rw [if_pos hneg, value_core n.natAbs]
    have habs : ((n.natAbs : ℕ) : ℚ) = -(n : ℚ) := by
      rw [Int.cast_natAbs]
      exact_mod_cast abs_of_neg hneg
    rw [habs]
    ring
  · rw [if_neg hneg, value_core n.natAbs]
    have habs : ((n.natAbs : ℕ) : ℚ) = (n : ℚ) := by
      rw [Int.cast_natAbs]
      exact_mod_cast abs_of_nonneg (not_lt.mp hneg)
    rw [habs]

theorem floatFmt_congr (x y : ℚ)
    (h : pyRound (x * (10 : ℚ) ^ 12) = pyRound (y * (10 : ℚ) ^ 12)) :
    floatFmt x = floatFmt y := by
  simp only [floatFmt, fixed12]
  rw [h]

theorem pyRound_rescale (n : Int) :
    pyRound (((n : ℚ) / (10 : ℚ) ^ 12) * (10 : ℚ) ^ 12) = n := by
  have h : ((n : ℚ) / (10 : ℚ) ^ 12) * (10 : ℚ) ^ 12 = (n : ℚ) := by
    field_simp
  rw [h, pyRound_intCast]

/-- Claim C4: the float rule is idempotent.  For every value on which the
numeric coercion `float(v)` succeeds (modelled exactly over `ℚ`), re-parsing
the produced output string as a number and re-formatting it through the same
rule (fixed-point with 12 decimal digits, trailing zeros stripped, bare
trailing decimal point stripped, empty result becoming `"0"`) yields the
identical string. -/
theorem C4_float_rule_idempotent (v : Value) (q : ℚ) (h : pyFloatCoerce v = some q) :
    _to_float_str (Value.str (_to_float_str v)) = _to_float_str v := by
  have hna : isNA v = false := by
    cases v <;> first | rfl | exact absurd h (by simp [pyFloatCoerce])
  have h1 : _to_float_str v = floatFmt q := by
    unfold _to_float_str
    rw [hna]
    simp only [Bool.false_eq_true, if_false, h]
  rw [h1]
  have h2 : _to_float_str (Value.str (floatFmt q))
      = floatFmt ((pyRound (q * (10 : ℚ) ^ 12) : ℚ) / (10 : ℚ) ^ 12) := by
    unfold _to_float_str
    have hp : pyFloatCoerce (Value.str (floatFmt q))
        = some ((pyRound (q * (10 : ℚ) ^ 12) : ℚ) / (10 : ℚ) ^ 12) := by
      show pyFloatParse (floatFmt q) = _
      exact parse_floatFmt q
    rw [show isNA (Value.str (floatFmt q)) = false from rfl]
    simp only [Bool.false_eq_true, if_false, hp]
  rw [h2]
  exact floatFmt_congr _ _ (by rw [pyRound_rescale])

/-- Claim C4 witness: idempotence at the float value `13/4 = 3.25`, via
`C4_float_rule_idempotent`. -/
theorem C4_witness :
    pyFloatCoerce (Value.float (13 / 4 : ℚ)) = some (13 / 4 : ℚ)
    ∧ _to_float_str (Value.str (_to_float_str (Value.float (13 / 4 : ℚ))))
        = _to_float_str (Value.float (13 / 4 : ℚ)) :=
  ⟨rfl, C4_float_rule_idempotent (Value.float (13 / 4 : ℚ)) (13 / 4 : ℚ) rfl⟩

/-! ## DataFrame-level lemmas (claims C2, C9, C10) -/

theorem col?_mapCols (g : String → List Value → List Value)
    (cols : List (String × List Value)) (c : String) :
    DataFrame.col? ⟨cols.map (fun p => (p.1, g p.1 p.2))⟩ c
      = (DataFrame.col? ⟨cols⟩ c).map (g c) := by
  induction cols with
  | nil => rfl
  | cons p t ih =>
      unfold DataFrame.col?
      simp only [List.map_cons]
      by_cases h : p.1 = c
      · rw [List.find?_cons_of_pos _ (by simpa using h),
          List.find?_cons_of_pos _ (by simpa using h)]
        simp [h]
      · rw [List.find?_cons_of_neg _ (by simpa using h),
          List.find?_cons_of_neg _ (by simpa using h)]
        exact ih

theorem col?_applyRules (P : ExternalParsers) (df : DataFrame) (c : String) :
    (applyRules P df).col? c
      = (df.col? c).map (fun vs => vs.map (fun v => Value.str (ruleFor P c v))) :=
  col?_mapCols (fun c vs => vs.map (fun v => Value.str (ruleFor P c v))) df.cols c

theorem col?_astypeStr (df : DataFrame) (c : String) :
    (astypeStr df).col? c
      = (df.col? c).map (fun vs => vs.map (fun v => Value.str (pyStr v))) :=
  col?_mapCols (fun _ vs => vs.map (fun v => Value.str (pyStr v))) df.cols c

/-- Claim C10: when the table has a `"geometry"` column but lacks `"stop_lat"`
or `"stop_lon"`, no enrichment happens — the output is exactly the plain
per-column conversion — and the geometry column is processed by the identity
rule (plain string conversion, null geometry as `""`). -/
theorem C10_geometry_without_latlon (P : ExternalParsers) (df : DataFrame)
    (hg : "geometry" ∈ df.names)
    (hmiss : "stop_lat" ∉ df.names ∨ "stop_lon" ∉ df.names) :
    format_df_for_gtfs P df = astypeStr (applyRules P df)
    ∧ (format_df_for_gtfs P df).col? "geometry"
        = (df.col? "geometry").map (fun vs => vs.map (fun v => Value.str (_identity_str v)))
    ∧ _identity_str Value.none = "" := by
  have hcond : ¬("geometry" ∈ df.names ∧ "stop_lat" ∈ df.names ∧ "stop_lon" ∈ df.names) := by
    rintro ⟨_, hlat, hlon⟩
    rcases hmiss with h | h
    · exact h hlat
    · exact h hlon
  have h1 : format_df_for_gtfs P df = astypeStr (applyRules P df) := by
    simp only [format_df_for_gtfs]
    rw [if_neg hcond]
  refine ⟨h1, ?_, rfl⟩
  rw [h1, col?_astypeStr, col?_applyRules, Option.map_map]
  congr 1
  funext vs
  show (vs.map (fun v => Value.str (ruleFor P "geometry" v))).map
      (fun v => Value.str (pyStr v)) = _
  rw [List.map_map]
  rfl

/-- Claim C10 witness: a table with only a `"geometry"` column (one null row),
via `C10_geometry_without_latlon`. -/
theorem C10_witness :
    format_df_for_gtfs isoParsers ⟨[("geometry", [Value.none])]⟩
        = astypeStr (applyRules isoParsers ⟨[("geometry", [Value.none])]⟩)
    ∧ (format_df_for_gtfs isoParsers ⟨[("geometry", [Value.none])]⟩).col? "geometry"
        = some [Value.str ""] := by
  have h := C10_geometry_without_latlon isoParsers ⟨[("geometry", [Value.none])]⟩
    (by decide) (Or.inl (by decide))
  refine ⟨h.1, ?_⟩
  rw [h.2.1]
  decide

theorem heapMapCol_get (P : ExternalParsers) (h : List DataFrame) (o i : Nat) (hne : i ≠ o)
    (c : String) : (heapMapCol P h o c)[i]? = h[i]? := by
  unfold heapMapCol
  exact List.getElem?_set_ne (Ne.symm hne)

theorem heapMapCol_length (P : ExternalParsers) (h : List DataFrame) (o : Nat) (c : String) :
    (heapMapCol P h o c).length = h.length := by
  unfold heapMapCol
  exact List.length_set _ _ _

theorem foldl_heapMapCol_get (P : ExternalParsers) (o i : Nat) (hne : i ≠ o) :
    ∀ (names : List String) (hp : List DataFrame),
      (names.foldl (fun acc c => heapMapCol P acc o c) hp)[i]? = hp[i]? := by
  intro names
  induction names with
  | nil => intro hp; rfl
  | cons c t ih =>
      intro hp
      rw [List.foldl_cons, ih, heapMapCol_get P hp o i hne]

theorem foldl_heapMapCol_length (P : ExternalParsers) (o : Nat) :
    ∀ (names : List String) (hp : List DataFrame),
      (names.foldl (fun acc c => heapMapCol P acc o c) hp).length = hp.length := by
  intro names
  induction names with
  | nil => intro hp; rfl
  | cons c t ih =>
      intro hp
      rw [List.foldl_cons, ih, heapMapCol_length]

theorem heapEnrich_get (H1 : List DataFrame) (o i : Nat) (hne : i ≠ o) :
    (heapEnrich H1 o)[i]? = H1[i]? := by
  simp only [heapEnrich]
  split
  · rw [List.getElem?_set_ne (Ne.symm hne), List.getElem?_set_ne (Ne.symm hne)]
  · rfl

theorem heapEnrich_length (H1 : List DataFrame) (o : Nat) :
    (heapEnrich H1 o).length = H1.length := by
  simp only [heapEnrich]
  split
  · rw [List.length_set, List.length_set]
  · rfl

theorem heapLoop_get (P : ExternalParsers) (H2 : List DataFrame) (o i : Nat) (hne : i ≠ o) :
    (heapLoop P H2 o)[i]? = H2[i]? :=
  foldl_heapMapCol_get P o i hne _ H2

theorem heapLoop_length (P : ExternalParsers) (H2 : List DataFrame) (o : Nat) :
    (heapLoop P H2 o).length = H2.length :=
  foldl_heapMapCol_length P o _ H2

/-- Claim C9: the canonicalizer does not mutate its input.  In the heap
replay of `format_df_for_gtfs` (where `out = df.copy()` allocates a fresh
cell and every subsequent write mutates only that cell), every table that was
on the heap before the call — in particular the source table at index `i` —
is unchanged afterwards, and the returned result lives in a freshly
allocated cell beyond all of them. -/
theorem C9_no_input_mutation (P : ExternalParsers) (H : List DataFrame) (i j : Nat)
    (hj : j < H.length) :
    (heap_format_df P H i).1[j]? = H[j]? ∧ H.length < (heap_format_df P H i).2 := by
  have hne : j ≠ H.length := Nat.ne_of_lt hj
  simp only [heap_format_df]
  have hlen3 : (heapLoop P (heapEnrich (H ++ [H.getD i ⟨[]⟩]) H.length) H.length).length
      = H.length + 1 := by
    rw [heapLoop_length, heapEnrich_length, List.length_append]
    rfl
  constructor
  · rw [List.getElem?_append, if_pos (by omega), heapLoop_get _ _ _ _ hne,
      heapEnrich_get _ _ _ hne, List.getElem?_append, if_pos hj]
  · rw [hlen3]
    omega

/-- Claim C9 witness: a one-table heap, via `C9_no_input_mutation`. -/
theorem C9_witness :
    (heap_format_df isoParsers [(⟨[]⟩ : DataFrame)] 0).1[0]? = [(⟨[]⟩ : DataFrame)][0]?
    ∧ 1 < (heap_format_df isoParsers [(⟨[]⟩ : DataFrame)] 0).2 :=
  C9_no_input_mutation isoParsers [(⟨[]⟩ : DataFrame)] 0 0 (by decide)

section ClaimProofs3

attribute [local semireducible] Rat.mul Rat.inv Rat.add Rat.sub Nat.gcd Rat.ofScientific

/-- Claim C2 counterexample: the geometry column is *not* absent from the
output — on a stops table with a Point geometry it is still a column of the
result (the code never drops it). -/
theorem C2_cex : "geometry" ∈ (format_df_for_gtfs isoParsers dfGeo).names := by
  decide

/-- Claim C2 (amended): on a table with `stop_lat`, `stop_lon` and `geometry`
columns, each row whose geometry value exposes coordinate accessors receives
the vertical coordinate in `stop_lat` and the horizontal coordinate in
`stop_lon` — the `y` and `x` accessors of a Point, or the `lat` and `lon`
accessors of a lat/lon object — but only where the existing entry is
missing; existing non-missing entries are preserved (then float-formatted as
usual).  The geometry column is *not* dropped: it remains a column of the
output. -/
theorem C2_geometry_enrichment (P : ExternalParsers) (lats lons geoms : List Value)
    (i : Nat) :
    (∀ (x y : ℚ) (v : Value), geoms[i]? = some (Value.point x y) →
        lats[i]? = some v → isNA v = true →
        Option.bind ((format_df_for_gtfs P
            ⟨[("stop_lat", lats), ("stop_lon", lons), ("geometry", geoms)]⟩).col? "stop_lat")
          (fun col => col[i]?) = some (Value.str (_to_float_str (Value.float y))))
    ∧ (∀ (x y : ℚ) (v : Value), geoms[i]? = some (Value.point x y) →
        lons[i]? = some v → isNA v = true →
        Option.bind ((format_df_for_gtfs P
            ⟨[("stop_lat", lats), ("stop_lon", lons), ("geometry", geoms)]⟩).col? "stop_lon")
          (fun col => col[i]?) = some (Value.str (_to_float_str (Value.float x))))
    ∧ (∀ (la lo : ℚ) (v : Value), geoms[i]? = some (Value.pointLatLon la lo) →
        lats[i]? = some v → isNA v = true →
        Option.bind ((format_df_for_gtfs P
            ⟨[("stop_lat", lats), ("stop_lon", lons), ("geometry", geoms)]⟩).col? "stop_lat")
          (fun col => col[i]?) = some (Value.str (_to_float_str (Value.float la))))
    ∧ (∀ (la lo : ℚ) (v : Value), geoms[i]? = some (Value.pointLatLon la lo) →
        lons[i]? = some v → isNA v = true →
        Option.bind ((format_df_for_gtfs P
            ⟨[("stop_lat", lats), ("stop_lon", lons), ("geometry", geoms)]⟩).col? "stop_lon")
          (fun col => col[i]?) = some (Value.str (_to_float_str (Value.float lo))))
    ∧ (∀ (g v : Value), geoms[i]? = some g → lats[i]? = some v → isNA v = false →
        Option.bind ((format_df_for_gtfs P
            ⟨[("stop_lat", lats), ("stop_lon", lons), ("geometry", geoms)]⟩).col? "stop_lat")
          (fun col => col[i]?) = some (Value.str (_to_float_str v)))
    ∧ (∀ (g v : Value), geoms[i]? = some g → lons[i]? = some v → isNA v = false →
        Option.bind ((format_df_for_gtfs P
            ⟨[("stop_lat", lats), ("stop_lon", lons), ("geometry", geoms)]⟩).col? "stop_lon")
          (fun col => col[i]?) = some (Value.str (_to_float_str v)))
    ∧ (format_df_for_gtfs P
          ⟨[("stop_lat", lats), ("stop_lon", lons), ("geometry", geoms)]⟩).names
        = ["stop_lat", "stop_lon", "geometry"] := by
  have hlat : (format_df_for_gtfs P
      ⟨[("stop_lat", lats), ("stop_lon", lons), ("geometry", geoms)]⟩).col? "stop_lat"
      = some (((List.zipWith fillna lats (geoms.map _gx)).map
          (fun v => Value.str (_to_float_str v))).map (fun v => Value.str (pyStr v))) := rfl
  have hlon : (format_df_for_gtfs P
      ⟨[("stop_lat", lats), ("stop_lon", lons), ("geometry", geoms)]⟩).col? "stop_lon"
      = some (((List.zipWith fillna lons (geoms.map _gy)).map
          (fun v => Value.str (_to_float_str v))).map (fun v => Value.str (pyStr v))) := rfl
  refine ⟨?_, ?_, ?_, ?_, ?_, ?_, rfl⟩
  · intro x y v hg hv hna
    rw [hlat]
    simp only [Option.some_bind, List.getElem?_map, List.getElem?_zipWith, hv, hg,
      Option.map_some']
    simp [fillna, hna, _gx, pyStr]
  · intro x y v hg hv hna
    rw [hlon]
    simp only [Option.some_bind, List.getElem?_map, List.getElem?_zipWith, hv, hg,
      Option.map_some']
    simp [fillna, hna, _gy, pyStr]
  · intro la lo v hg hv hna
    rw [hlat]
    simp only [Option.some_bind, List.getElem?_map, List.getElem?_zipWith, hv, hg,
      Option.map_some']
    simp [fillna, hna, _gx, pyStr]
  · intro la lo v hg hv hna
    rw [hlon]
    simp only [Option.some_bind, List.getElem?_map, List.getElem?_zipWith, hv, hg,
      Option.map_some']
    simp [fillna, hna, _gy, pyStr]
  · intro g v hg hv hna
    rw [hlat]
    simp only [Option.some_bind, List.getElem?_map, List.getElem?_zipWith, hv, hg,
      Option.map_some']
    simp [fillna, hna, pyStr]
  · intro g v hg hv hna
    rw [hlon]
    simp only [Option.some_bind, List.getElem?_map, List.getElem?_zipWith, hv, hg,
      Option.map_some']
    simp [fillna, hna, pyStr]

/-- Claim C2 witness: a Point with `x = 11.2`, `y = 49.3`, and a lat/lon
object with `lat = 49.3`, `lon = 11.2`, each against missing lat/lon
entries, fill `stop_lat = "49.3"` and `stop_lon = "11.2"`, and the geometry
column is still present; via `C2_geometry_enrichment`. -/
theorem C2_witness :
    Option.bind ((format_df_for_gtfs isoParsers dfGeo).col? "stop_lat") (fun col => col[0]?)
        = some (Value.str "49.3")
    ∧ Option.bind ((format_df_for_gtfs isoParsers dfGeo).col? "stop_lon") (fun col => col[0]?)
        = some (Value.str "11.2")
    ∧ Option.bind ((format_df_for_gtfs isoParsers
          ⟨[("stop_lat", [Value.none]), ("stop_lon", [Value.none]),
            ("geometry", [Value.pointLatLon (493 / 10 : ℚ) (56 / 5 : ℚ)])]⟩).col? "stop_lat")
        (fun col => col[0]?) = some (Value.str "49.3")
    ∧ Option.bind ((format_df_for_gtfs isoParsers
          ⟨[("stop_lat", [Value.none]), ("stop_lon", [Value.none]),
            ("geometry", [Value.pointLatLon (493 / 10 : ℚ) (56 / 5 : ℚ)])]⟩).col? "stop_lon")
        (fun col => col[0]?) = some (Value.str "11.2")
    ∧ (format_df_for_gtfs isoParsers dfGeo).names = ["stop_lat", "stop_lon", "geometry"] := by
  have h := C2_geometry_enrichment isoParsers [Value.none] [Value.none]
    [Value.point (56 / 5 : ℚ) (493 / 10 : ℚ)] 0
  have h2 := C2_geometry_enrichment isoParsers [Value.none] [Value.none]
    [Value.pointLatLon (493 / 10 : ℚ) (56 / 5 : ℚ)] 0
  refine ⟨?_, ?_, ?_, ?_, h.2.2.2.2.2.2⟩
  · show Option.bind ((format_df_for_gtfs isoParsers
        ⟨[("stop_lat", [Value.none]), ("stop_lon", [Value.none]),
          ("geometry", [Value.point (56 / 5 : ℚ) (493 / 10 : ℚ)])]⟩).col? "stop_lat")
      (fun col => col[0]?) = some (Value.str "49.3")
    rw [h.1 (56 / 5 : ℚ) (493 / 10 : ℚ) Value.none rfl rfl rfl]
    decide
  · show Option.bind ((format_df_for_gtfs isoParsers
        ⟨[("stop_lat", [Value.none]), ("stop_lon", [Value.none]),
          ("geometry", [Value.point (56 / 5 : ℚ) (493 / 10 : ℚ)])]⟩).col? "stop_lon")
      (fun col => col[0]?) = some (Value.str "11.2")
    rw [h.2.1 (56 / 5 : ℚ) (493 / 10 : ℚ) Value.none rfl rfl rfl]
    decide
  · rw [h2.2.2.1 (493 / 10 : ℚ) (56 / 5 : ℚ) Value.none rfl rfl rfl]
    decide
  · rw [h2.2.2.2.1 (493 / 10 : ℚ) (56 / 5 : ℚ) Value.none rfl rfl rfl]
    decide

end ClaimProofs3
